import Mathlib

/-!
Shallow embedding of `src/states/mod.rs` (shared level-session mechanics of the
survive2020 game): the per-frame timer tick `update_timer_and_set_high_score`,
the bootstrap helpers `init_timer_text` and `init_level_title`, the dispatcher
factory, and the escape-to-menu trigger `return_to_main_menu_on_escape`.

Modelling conventions:
* `f32` time values are modelled as exact rationals (`ℚ`); every comparison the
  code performs (`>=` against `max_time`, `floor` comparison for the
  once-per-second throttle) is order-theoretic and the concrete inputs used in
  the claims are far from any representation boundary, so statuses do not
  depend on `f32` rounding.
* The ECS world is restricted to the slices this module touches: the entities
  carrying `(UiText, TimerComponent)` and the entities carrying `LevelTitle`,
  each as a list of `(entity id, displayed content)` pairs in storage order.
* Side effects on external collaborators are recorded as traces: `writes` logs
  every `ui_text.text = ...` assignment performed by the join loop, `calls`
  logs every invocation of `update_high_score_if_greater`, and `deleted`
  records the entity handed to `world.delete_entity` (if any).
-/

abbrev EntityId := Nat

/-- The two `SimpleTrans` values this module produces: `Trans::None` and
`Trans::Replace(Box::new(MainMenuState::default()))`. -/
inductive SimpleTrans
  | none
  | replaceMainMenu
  deriving DecidableEq, Repr

/-- Rendering of an `f32` value the way Rust's `{}` format does for the values
appearing here: an integral value prints with no decimal point (`5.0` prints
as `5`). Time values are modelled as exact rationals. -/
def dispF32 (q : ℚ) : String :=
  if q.den = 1 then toString q.num else toString q

/-- The text written by the tick loop, line 58:
`format!("{}s / {}s", elapsed_time.floor(), max_time)` (note: the post-update
`elapsed_time`). -/
def runningText (elapsed_time max_time : ℚ) : String :=
  dispF32 (⌊elapsed_time⌋ : ℚ) ++ "s / " ++ dispF32 max_time ++ "s"

/-- The initial readout text of `init_timer_text`, line 105:
`format!("0s /{}s", max_seconds)` (no space before the slash). -/
def initialTimerText (max_seconds : ℚ) : String :=
  "0s /" ++ dispF32 max_seconds ++ "s"

/-- The slice of the ECS world the timer code touches: the entities carrying
both a `UiText` and the `TimerComponent` marker, as (entity id, current text)
pairs in storage order, plus the id the next `create_entity` call will use. -/
structure TimerWorld where
  timerEntities : List (EntityId × String)
  nextId : Nat
  deriving DecidableEq, Repr

/-- Everything one call to `update_timer_and_set_high_score` produces: the
updated world, the value written back through `*elapsed_time`, the log of
`ui_text.text` writes, the log of `update_high_score_if_greater` invocations,
the entity handed to `delete_entity` (if any), and the returned transition. -/
structure TickResult where
  world : TimerWorld
  elapsed : ℚ
  writes : List (EntityId × String)
  calls : List (String × Nat)
  deleted : Option EntityId
  trans : SimpleTrans
  deriving DecidableEq, Repr

/-- The `join` loop of lines 57–63: every `(UiText, TimerComponent)` entity has
its text overwritten with `newText`, and when `level_is_over` the mutable
`timer_entity` slot is reassigned each iteration, so it ends up holding the
last entity iterated. Returns the write log and the final `timer_entity`. -/
def timerJoinLoop (entities : List (EntityId × String)) (newText : String)
    (level_is_over : Bool) : List (EntityId × String) × Option EntityId :=
  entities.foldl
    (fun acc p =>
      (acc.1 ++ [(p.1, newText)], if level_is_over then some p.1 else acc.2))
    ([], Option.none)

/-- Replay a log of `ui_text.text` writes onto the entity list. -/
def applyWrites (entities writes : List (EntityId × String)) :
    List (EntityId × String) :=
  writes.foldl
    (fun es w => es.map (fun p => if p.1 = w.1 then (p.1, w.2) else p))
    entities

/-- Embedding of `update_timer_and_set_high_score` (lines 30–85).
`delta_seconds` stands for `world.read_resource::<Time>().delta_seconds()`;
the external high-score store is observed through the `calls` log. -/
def update_timer_and_set_high_score (world : TimerWorld) (elapsed_time : ℚ)
    (max_time : ℚ) (score : Nat) (high_score_key : String)
    (delta_seconds : ℚ) : TickResult :=
  -- Old time + delta seconds.
  let new_time := elapsed_time + delta_seconds
  -- Whether or not a full second has changed.
  let time_changed_by_a_second : Bool := decide (⌊new_time⌋ > ⌊elapsed_time⌋)
  -- If the timer is maxed out (checked on the pre-update value).
  let level_is_over : Bool := decide (elapsed_time ≥ max_time)
  -- Update the elapsed time.
  let elapsed_time := new_time
  let wl :=
    if time_changed_by_a_second || level_is_over then
      timerJoinLoop world.timerEntities (runningText elapsed_time max_time)
        level_is_over
    else ([], Option.none)
  let world : TimerWorld :=
    { world with timerEntities := applyWrites world.timerEntities wl.1 }
  if level_is_over then
    -- `update_high_score_if_greater(world, high_score_key, score)` is invoked
    -- here, then the remembered timer entity is deleted.
    let world' : TimerWorld :=
      match wl.2 with
      | some entity =>
          { world with
              timerEntities :=
                world.timerEntities.filter (fun p => decide (p.1 ≠ entity)) }
      | Option.none => world
    { world := world', elapsed := elapsed_time, writes := wl.1,
      calls := [(high_score_key, score)], deleted := wl.2,
      trans := SimpleTrans.replaceMainMenu }
  else
    { world := world, elapsed := elapsed_time, writes := wl.1,
      calls := [], deleted := Option.none, trans := SimpleTrans.none }

/-- The observable outcome of a sequence of ticks: final world and elapsed
time, the per-tick transition decisions, the concatenated high-score call
log, and the post-tick elapsed values in order. -/
structure RunResult where
  world : TimerWorld
  elapsed : ℚ
  decisions : List SimpleTrans
  calls : List (String × Nat)
  elapsedTrace : List ℚ
  deriving DecidableEq, Repr

/-- Run `update_timer_and_set_high_score` once per delta, threading the world
and the `elapsed_time` slot exactly as a level state does each frame. -/
def runTicks (world : TimerWorld) (elapsed_time max_time : ℚ) (score : Nat)
    (high_score_key : String) : List ℚ → RunResult
  | [] => ⟨world, elapsed_time, [], [], []⟩
  | d :: ds =>
    let r := update_timer_and_set_high_score world elapsed_time max_time score
      high_score_key d
    let rest := runTicks r.world r.elapsed max_time score high_score_key ds
    ⟨rest.world, rest.elapsed, r.trans :: rest.decisions,
      r.calls ++ rest.calls, r.elapsed :: rest.elapsedTrace⟩

/-- Like `runTicks`, but the session stops at the first tick whose decision is
`Replace`, as the state manager replaces the level state at that point. -/
def runSession (world : TimerWorld) (elapsed_time max_time : ℚ) (score : Nat)
    (high_score_key : String) : List ℚ → RunResult
  | [] => ⟨world, elapsed_time, [], [], []⟩
  | d :: ds =>
    let r := update_timer_and_set_high_score world elapsed_time max_time score
      high_score_key d
    match r.trans with
    | SimpleTrans.replaceMainMenu =>
        ⟨r.world, r.elapsed, [r.trans], r.calls, [r.elapsed]⟩
    | SimpleTrans.none =>
        let rest := runSession r.world r.elapsed max_time score high_score_key ds
        ⟨rest.world, rest.elapsed, r.trans :: rest.decisions,
          r.calls ++ rest.calls, r.elapsed :: rest.elapsedTrace⟩

/-- Running sums of the deltas: entry `i` is `e` plus the sum of the first
`i + 1` deltas. -/
def partialSums (e : ℚ) : List ℚ → List ℚ
  | [] => []
  | d :: ds => (e + d) :: partialSums (e + d) ds

/-- Embedding of `init_timer_text` (lines 90–118): creates one new entity
tagged `TimerComponent` whose `UiText` text is `format!("0s /{}s", max_seconds)`.
Font lookup and the `UiTransform` carry no data the claims mention. -/
def init_timer_text (world : TimerWorld) (max_seconds : ℚ) : TimerWorld :=
  { timerEntities :=
      world.timerEntities ++ [(world.nextId, initialTimerText max_seconds)],
    nextId := world.nextId + 1 }

/-- The slice of the ECS world carrying the `LevelTitle` marker: (entity id,
sprite filename) pairs, plus the next entity id. -/
structure TitleWorld where
  titleEntities : List (EntityId × String)
  nextId : Nat
  deriving DecidableEq, Repr

/-- Modelled from the spec: `delete_all_entities_with_component::<LevelTitle>`
is imported from the crate root, whose source is not under `src/`; the spec
says `init_level_title` first "destroys all existing Level-Title-tagged
entities". -/
def delete_all_entities_with_LevelTitle (world : TitleWorld) : TitleWorld :=
  { world with titleEntities := [] }

/-- Embedding of `init_level_title` (lines 187–204): delete all previous
titles, then create one entity tagged `LevelTitle` displaying the sprite
loaded from `filename`. -/
def init_level_title (world : TitleWorld) (filename : String) : TitleWorld :=
  let world := delete_all_entities_with_LevelTitle world
  { titleEntities := world.titleEntities ++ [(world.nextId, filename)],
    nextId := world.nextId + 1 }

/-- The system-registration builder: `DispatcherBuilder`, holding the systems
registered so far, identified by name. -/
structure DispatcherBuilder where
  systems : List String
  deriving DecidableEq, Repr

/-- A built dispatcher: the set of per-frame systems bound to the thread pool
(the pool itself carries no data the claims mention). -/
structure Dispatcher where
  systems : List String
  deriving DecidableEq, Repr

/-- Embedding of `create_systems_dispatcher` (lines 135–149): start from an
empty builder, let the caller register systems, build. The Rust closure
mutates the builder through `&mut`; it is modelled as a builder-to-builder
function. -/
def create_systems_dispatcher
    (add_systems : DispatcherBuilder → DispatcherBuilder) : Dispatcher :=
  let builder := add_systems { systems := [] }
  { systems := builder.systems }

/-- Embedding of `create_optional_systems_dispatcher` (lines 152–157):
`Some(create_systems_dispatcher(world, add_systems))`. -/
def create_optional_systems_dispatcher
    (add_systems : DispatcherBuilder → DispatcherBuilder) :
    Option Dispatcher :=
  some (create_systems_dispatcher add_systems)

/-- The `winit` virtual key codes: `Escape` plus all others. -/
inductive VirtualKeyCode
  | escape
  | key (code : Nat)
  deriving DecidableEq, Repr

/-- Key state of a keyboard input event. -/
inductive ElementState
  | pressed
  | released
  deriving DecidableEq, Repr

/-- Payload of a keyboard input window event. -/
structure KeyboardInput where
  state : ElementState
  virtual_keycode : Option VirtualKeyCode
  deriving DecidableEq, Repr

/-- Window events as `amethyst::input::is_key_down` observes them: a keyboard
input, or any other window event. -/
inductive WindowEvent
  | keyboardInput (input : KeyboardInput)
  | otherWindowEvent (tag : Nat)
  deriving DecidableEq, Repr

/-- The `StateEvent` variants: window events and the non-window ones
(`Ui`, `Input`). -/
inductive StateEvent
  | window (event : WindowEvent)
  | ui (tag : Nat)
  | input (tag : Nat)
  deriving DecidableEq, Repr

/-- Embedding of `amethyst::input::is_key_down`: true exactly for a keyboard
input event in the `Pressed` state whose virtual keycode is `Some(key)`. -/
def is_key_down (event : WindowEvent) (key : VirtualKeyCode) : Bool :=
  match event with
  | WindowEvent.keyboardInput input =>
      decide (input.state = ElementState.pressed) &&
        decide (input.virtual_keycode = some key)
  | WindowEvent.otherWindowEvent _ => false

/-- Embedding of `return_to_main_menu_on_escape` (lines 167–177). -/
def return_to_main_menu_on_escape (event : StateEvent) : SimpleTrans :=
  match event with
  | StateEvent.window event =>
      if is_key_down event VirtualKeyCode.escape then
        SimpleTrans.replaceMainMenu
      else
        SimpleTrans.none
  | _ => SimpleTrans.none

/-- The unique event `return_to_main_menu_on_escape` maps to `Replace`:
Escape pressed down, delivered as a window event. -/
def escapePressedEvent : StateEvent :=
  StateEvent.window (WindowEvent.keyboardInput
    ⟨ElementState.pressed, some VirtualKeyCode.escape⟩)

/-- A world holding a single timer readout, as `init_timer_text` leaves it for
a level with `max_time = 5`. -/
def exampleWorld : TimerWorld :=
  ⟨[(0, initialTimerText 5)], 1⟩

/-! ## Characterization lemmas for one tick -/

/-- The write log of the join loop: every timer entity gets the new text, in
storage order, whatever the accumulator. -/
lemma timerJoinLoop_go_fst (es : List (EntityId × String)) (t : String)
    (b : Bool) (acc : List (EntityId × String) × Option EntityId) :
    (es.foldl
      (fun acc p =>
        (acc.1 ++ [(p.1, t)], if b then some p.1 else acc.2)) acc).1 =
      acc.1 ++ es.map (fun p => (p.1, t)) := by
  induction es generalizing acc with
  | nil => simp
  | cons p es ih => simp [List.foldl_cons, ih]

lemma timerJoinLoop_fst (es : List (EntityId × String)) (t : String)
    (b : Bool) : (timerJoinLoop es t b).1 = es.map (fun p => (p.1, t)) := by
  simpa using timerJoinLoop_go_fst es t b ([], Option.none)

lemma update_elapsed (w : TimerWorld) (e M : ℚ) (s : Nat) (k : String)
    (d : ℚ) : (update_timer_and_set_high_score w e M s k d).elapsed = e + d := by
  simp only [update_timer_and_set_high_score]
  split <;> rfl

lemma update_trans (w : TimerWorld) (e M : ℚ) (s : Nat) (k : String) (d : ℚ) :
    (update_timer_and_set_high_score w e M s k d).trans =
      if M ≤ e then SimpleTrans.replaceMainMenu else SimpleTrans.none := by
  simp only [update_timer_and_set_high_score, ge_iff_le]
  by_cases h : M ≤ e <;> simp [h]

lemma update_calls (w : TimerWorld) (e M : ℚ) (s : Nat) (k : String) (d : ℚ) :
    (update_timer_and_set_high_score w e M s k d).calls =
      if M ≤ e then [(k, s)] else [] := by
  simp only [update_timer_and_set_high_score, ge_iff_le]
  by_cases h : M ≤ e <;> simp [h]

lemma update_writes (w : TimerWorld) (e M : ℚ) (s : Nat) (k : String) (d : ℚ) :
    (update_timer_and_set_high_score w e M s k d).writes =
      if ⌊e + d⌋ > ⌊e⌋ ∨ M ≤ e then
        w.timerEntities.map (fun p => (p.1, runningText (e + d) M))
      else [] := by
  simp only [update_timer_and_set_high_score, ge_iff_le]
  by_cases h1 : (⌊e + d⌋ : ℤ) > ⌊e⌋ <;> by_cases h2 : M ≤ e <;>
    simp [h1, h2, timerJoinLoop_fst]

/-! ## Trace lemmas for sequences of ticks

The transition decisions, high-score calls and elapsed values of a run depend
only on the elapsed time, the max time and the deltas — not on the entity
world — which the following pure recursions make explicit. -/

/-- The decision sequence of `runTicks`, as a function of the time values. -/
def decisionsModel (e M : ℚ) : List ℚ → List SimpleTrans
  | [] => []
  | d :: ds =>
    (if M ≤ e then SimpleTrans.replaceMainMenu else SimpleTrans.none) ::
      decisionsModel (e + d) M ds

/-- The decision sequence of `runSession`: it cuts off at the first expired
tick. -/
def sessionDecisionsModel (e M : ℚ) : List ℚ → List SimpleTrans
  | [] => []
  | d :: ds =>
    if M ≤ e then [SimpleTrans.replaceMainMenu]
    else SimpleTrans.none :: sessionDecisionsModel (e + d) M ds

lemma runTicks_decisions (w : TimerWorld) (e M : ℚ) (s : Nat) (k : String)
    (ds : List ℚ) :
    (runTicks w e M s k ds).decisions = decisionsModel e M ds := by
  induction ds generalizing w e with
  | nil => rfl
  | cons d ds ih =>
      simp [runTicks, decisionsModel, update_trans, update_elapsed, ih]

lemma runTicks_elapsedTrace (w : TimerWorld) (e M : ℚ) (s : Nat) (k : String)
    (ds : List ℚ) :
    (runTicks w e M s k ds).elapsedTrace = partialSums e ds := by
  induction ds generalizing w e with
  | nil => rfl
  | cons d ds ih =>
      simp [runTicks, partialSums, update_elapsed, ih]

lemma runTicks_elapsed (w : TimerWorld) (e M : ℚ) (s : Nat) (k : String)
    (ds : List ℚ) :
    (runTicks w e M s k ds).elapsed = e + ds.sum := by
  induction ds generalizing w e with
  | nil => simp [runTicks]
  | cons d ds ih =>
      simp only [runTicks, update_elapsed, ih, List.sum_cons]
      ring

lemma partialSums_chain (e : ℚ) (ds : List ℚ) (h : ∀ x ∈ ds, 0 ≤ x) :
    List.Chain (· ≤ ·) e (partialSums e ds) := by
  induction ds generalizing e with
  | nil => exact List.Chain.nil
  | cons d ds ih =>
      have hd : 0 ≤ d := h d (by simp)
      exact List.Chain.cons (by linarith)
        (ih (e + d) (fun x hx => h x (by simp [hx])))

lemma runSession_decisions (w : TimerWorld) (e M : ℚ) (s : Nat) (k : String)
    (ds : List ℚ) :
    (runSession w e M s k ds).decisions = sessionDecisionsModel e M ds := by
  induction ds generalizing w e with
  | nil => rfl
  | cons d ds ih =>
      by_cases h : M ≤ e
      · simp [runSession, sessionDecisionsModel, update_trans, h]
      · simp [runSession, sessionDecisionsModel, update_trans, update_elapsed,
          h, ih]

/-- A session that reaches an expired tick commits the high score exactly
once, with the configured key and score: every earlier tick contributes no
call, and the run stops at the first expired tick. -/
lemma runSession_calls_of_expired (w : TimerWorld) (e M : ℚ) (s : Nat)
    (k : String) (ds : List ℚ)
    (h : SimpleTrans.replaceMainMenu ∈ (runSession w e M s k ds).decisions) :
    (runSession w e M s k ds).calls = [(k, s)] := by
  induction ds generalizing w e with
  | nil => simp [runSession] at h
  | cons d ds ih =>
      by_cases he : M ≤ e
      · simp [runSession, update_trans, update_calls, he]
      · simp only [runSession, update_trans, update_elapsed, update_calls, he,
          if_neg] at h ⊢
        simp at h
        exact ih _ _ h

/-- The escape trigger as a case analysis: `Replace` exactly at the
Escape-pressed window event, `None` everywhere else. -/
lemma escape_trans_eq (event : StateEvent) :
    return_to_main_menu_on_escape event =
      if event = escapePressedEvent then SimpleTrans.replaceMainMenu
      else SimpleTrans.none := by
  rcases event with we | t | t
  · rcases we with ⟨st, kc⟩ | t
    · rcases kc with _ | k
      · cases st <;>
          simp [return_to_main_menu_on_escape, is_key_down, escapePressedEvent]
      · cases st <;> cases k <;>
          simp [return_to_main_menu_on_escape, is_key_down, escapePressedEvent]
    · simp [return_to_main_menu_on_escape, is_key_down, escapePressedEvent]
  · simp [return_to_main_menu_on_escape, escapePressedEvent]
  · simp [return_to_main_menu_on_escape, escapePressedEvent]

/-! ## Claims -/

/-- C1 (as amended): a tick of `update_timer_and_set_high_score` returns
`Replace(MainMenu)` exactly when the pre-tick `elapsed_time` is `≥ max_time`
and returns `None` otherwise; with `M = 5`, starting `elapsed_time = 0` and
deltas `[4.9, 0.05, 0.1]`, the three decisions are `[None, None, None]` (the
pre-tick values are 0, 4.9 and 4.95, all below 5) — `Replace` arrives only on
a fourth tick, whose pre-tick value 5.05 is past 5. -/
theorem expiry_boundary_one_frame_late :
    (∀ (w : TimerWorld) (e M : ℚ) (s : Nat) (k : String) (d : ℚ),
        (update_timer_and_set_high_score w e M s k d).trans =
          if M ≤ e then SimpleTrans.replaceMainMenu else SimpleTrans.none) ∧
    (runTicks exampleWorld 0 5 0 "hornets_hs" [4.9, 0.05, 0.1]).decisions =
      [SimpleTrans.none, SimpleTrans.none, SimpleTrans.none] ∧
    (runTicks exampleWorld 0 5 0 "hornets_hs"
        [4.9, 0.05, 0.1, 0.1]).decisions =
      [SimpleTrans.none, SimpleTrans.none, SimpleTrans.none,
        SimpleTrans.replaceMainMenu] := by
  refine ⟨update_trans, ?_, ?_⟩ <;> rw [runTicks_decisions] <;>
    norm_num [decisionsModel]

/-- C1 (counterexample to the claim as stated): with `M = 5`, starting
`elapsed_time = 0` and deltas `[4.9, 0.05, 0.1]`, the decisions are not
`[None, None, Replace]` — the third tick still sees pre-tick value
`4.95 < 5` and returns `None`. -/
theorem expiry_example_decisions_counterexample :
    (runTicks exampleWorld 0 5 0 "hornets_hs" [4.9, 0.05, 0.1]).decisions ≠
      [SimpleTrans.none, SimpleTrans.none, SimpleTrans.replaceMainMenu] := by
  rw [runTicks_decisions]
  norm_num [decisionsModel]
  decide

/-- C2: every tick sets `elapsed_time` to its old value plus `delta_seconds`;
over any run with non-negative deltas starting from 0, the post-tick values
are the partial sums of the deltas, the final value is their total sum, and
the values are non-decreasing. -/
theorem elapsed_time_accumulates (w : TimerWorld) (e M : ℚ) (s : Nat)
    (k : String) (d : ℚ) (ds : List ℚ) (h : ∀ x ∈ ds, 0 ≤ x) :
    (update_timer_and_set_high_score w e M s k d).elapsed = e + d ∧
    (runTicks w 0 M s k ds).elapsedTrace = partialSums 0 ds ∧
    (runTicks w 0 M s k ds).elapsed = ds.sum ∧
    List.Chain (· ≤ ·) 0 ((runTicks w 0 M s k ds).elapsedTrace) := by
  refine ⟨update_elapsed w e M s k d, runTicks_elapsedTrace w 0 M s k ds,
    ?_, ?_⟩
  · rw [runTicks_elapsed]; ring
  · rw [runTicks_elapsedTrace]; exact partialSums_chain 0 ds h

/-- C2 witness: the accumulation facts at a concrete world, starting time and
delta list. -/
theorem elapsed_time_accumulates_witness :
    (update_timer_and_set_high_score exampleWorld 1 5 0 "hornets_hs" 2).elapsed
      = 1 + 2 ∧
    (runTicks exampleWorld 0 5 0 "hornets_hs" [4.9, 0.05, 0.1]).elapsedTrace =
      partialSums 0 [4.9, 0.05, 0.1] ∧
    (runTicks exampleWorld 0 5 0 "hornets_hs" [4.9, 0.05, 0.1]).elapsed =
      List.sum [4.9, 0.05, 0.1] ∧
    List.Chain (· ≤ ·) 0
      ((runTicks exampleWorld 0 5 0 "hornets_hs"
        [4.9, 0.05, 0.1]).elapsedTrace) :=
  elapsed_time_accumulates exampleWorld 1 5 0 "hornets_hs" 2 [4.9, 0.05, 0.1]
    (by norm_num)

/-- C3: a tick invokes `update_high_score_if_greater` exactly once, with the
`high_score_key` and `score` of that call, iff its pre-tick `elapsed_time` is
`≥ max_time`, and such an expired tick is exactly the one returning
`Replace(MainMenu)`; hence a session (which stops at its first `Replace`)
that expires commits its score exactly one time. -/
theorem high_score_commit_exactly_once (w : TimerWorld) (e M : ℚ) (s : Nat)
    (k : String) (d : ℚ) (ds : List ℚ)
    (h : SimpleTrans.replaceMainMenu ∈ (runSession w e M s k ds).decisions) :
    (update_timer_and_set_high_score w e M s k d).calls =
      (if M ≤ e then [(k, s)] else []) ∧
    ((update_timer_and_set_high_score w e M s k d).trans =
        SimpleTrans.replaceMainMenu ↔ M ≤ e) ∧
    (runSession w e M s k ds).calls = [(k, s)] := by
  refine ⟨update_calls w e M s k d, ?_,
    runSession_calls_of_expired w e M s k ds h⟩
  rw [update_trans]
  by_cases hM : M ≤ e <;> simp [hM]

/-- C3 witness: a session with `M = 5` and deltas `[4.9, 0.05, 0.1, 0.1]`
expires at the fourth tick and commits `("hornets_hs", 7)` exactly once. -/
theorem high_score_commit_exactly_once_witness :
    (update_timer_and_set_high_score exampleWorld 0 5 7 "hornets_hs" 0).calls =
      (if (5 : ℚ) ≤ 0 then [("hornets_hs", 7)] else []) ∧
    ((update_timer_and_set_high_score exampleWorld 0 5 7 "hornets_hs" 0).trans =
        SimpleTrans.replaceMainMenu ↔ (5 : ℚ) ≤ 0) ∧
    (runSession exampleWorld 0 5 7 "hornets_hs"
      [4.9, 0.05, 0.1, 0.1]).calls = [("hornets_hs", 7)] :=
  high_score_commit_exactly_once exampleWorld 0 5 7 "hornets_hs" 0
    [4.9, 0.05, 0.1, 0.1]
    (by rw [runSession_decisions]; norm_num [sessionDecisionsModel])

/-- C4: the tick's write log touches the timer readout iff the whole-second
floor changed or the tick is expired; every write sets the text to
`"{floor(post-update elapsed_time)}s / {max_time}s"`; concretely, from
`elapsed_time = 0.95` with delta `0.1` the floor crosses 0 → 1 and the
readout is rewritten to `"1s / 5s"`. -/
theorem readout_rewrite_iff_crossed_or_expired (w : TimerWorld)
    (e M : ℚ) (s : Nat) (k : String) (d : ℚ) :
    (update_timer_and_set_high_score w e M s k d).writes =
      (if ⌊e + d⌋ > ⌊e⌋ ∨ M ≤ e then
        w.timerEntities.map (fun p => (p.1, runningText (e + d) M))
      else []) ∧
    (update_timer_and_set_high_score ⟨[(0, initialTimerText 5)], 1⟩ 0.95 5 0
        "wildfires_hs" 0.1).writes = [(0, "1s / 5s")] := by
  refine ⟨update_writes w e M s k d, ?_⟩
  rw [update_writes,
    if_pos (Or.inl (by norm_num : ⌊(0.95 : ℚ) + 0.1⌋ > ⌊(0.95 : ℚ)⌋))]
  have e1 : (0.95 : ℚ) + 0.1 = 1.05 := by norm_num
  have e2 : ⌊(1.05 : ℚ)⌋ = (1 : ℤ) := by norm_num
  simp only [e1, runningText, e2, List.map_cons, List.map_nil]
  decide

/-- C5: an expired tick over a world with zero timer-marker entities attempts
no deletion, still logs the single `update_high_score_if_greater` call with
the given key and score, returns `Replace(MainMenu)`, and leaves the world
unchanged. -/
theorem missing_entity_expiry_safe (e M : ℚ) (s : Nat) (k : String) (d : ℚ)
    (n : Nat) (h : M ≤ e) :
    (update_timer_and_set_high_score ⟨[], n⟩ e M s k d).deleted =
      Option.none ∧
    (update_timer_and_set_high_score ⟨[], n⟩ e M s k d).calls = [(k, s)] ∧
    (update_timer_and_set_high_score ⟨[], n⟩ e M s k d).trans =
      SimpleTrans.replaceMainMenu ∧
    (update_timer_and_set_high_score ⟨[], n⟩ e M s k d).world = ⟨[], n⟩ := by
  simp [update_timer_and_set_high_score, ge_iff_le, h, timerJoinLoop,
    applyWrites]

/-- C5 witness: expiry at `elapsed_time = max_time = 5` with no timer entity
present. -/
theorem missing_entity_expiry_safe_witness :
    (update_timer_and_set_high_score ⟨[], 0⟩ 5 5 3 "main_hs" 1).deleted =
      Option.none ∧
    (update_timer_and_set_high_score ⟨[], 0⟩ 5 5 3 "main_hs" 1).calls =
      [("main_hs", 3)] ∧
    (update_timer_and_set_high_score ⟨[], 0⟩ 5 5 3 "main_hs" 1).trans =
      SimpleTrans.replaceMainMenu ∧
    (update_timer_and_set_high_score ⟨[], 0⟩ 5 5 3 "main_hs" 1).world =
      ⟨[], 0⟩ :=
  missing_entity_expiry_safe 5 5 3 "main_hs" 1 0 (by norm_num)

/-- C6: `return_to_main_menu_on_escape` returns `Replace(MainMenu)` exactly
on the window event carrying a pressed Escape key and `None` on every other
event; being a pure function, repeated application to the same event yields
the same decision. -/
theorem escape_trigger_pure (event : StateEvent) :
    (return_to_main_menu_on_escape event = SimpleTrans.replaceMainMenu ↔
      event = escapePressedEvent) ∧
    (return_to_main_menu_on_escape event = SimpleTrans.none ↔
      event ≠ escapePressedEvent) ∧
    return_to_main_menu_on_escape event =
      return_to_main_menu_on_escape event := by
  refine ⟨?_, ?_, rfl⟩ <;> rw [escape_trans_eq] <;>
    by_cases he : event = escapePressedEvent <;> simp [he]

/-- C7: `init_level_title` leaves exactly one level-title entity, displaying
the given asset; a second call with a different asset again leaves exactly
one, displaying the second asset. -/
theorem level_title_single_after_init (w : TitleWorld) (f1 f2 : String) :
    (init_level_title w f1).titleEntities = [(w.nextId, f1)] ∧
    (init_level_title w f1).titleEntities.length = 1 ∧
    (init_level_title (init_level_title w f1) f2).titleEntities.map Prod.snd =
      [f2] := by
  simp [init_level_title, delete_all_entities_with_LevelTitle]

/-- C8: `init_timer_text` creates exactly one new timer-tagged entity whose
initial text is `"0s /{max_seconds}s"`, which differs (missing space before
the slash) from the running-state format `"{t}s / {max}s"` at every
`max_seconds`; concretely `"0s /5s"` versus `"0s / 5s"`. -/
theorem timer_text_initial_format (w : TimerWorld) (m : ℚ) :
    (init_timer_text w m).timerEntities =
      w.timerEntities ++ [(w.nextId, initialTimerText m)] ∧
    initialTimerText m = "0s /" ++ dispF32 m ++ "s" ∧
    initialTimerText m ≠ runningText 0 m ∧
    initialTimerText 5 = "0s /5s" ∧
    runningText 0 5 = "0s / 5s" := by
  have hz : ((⌊(0 : ℚ)⌋ : ℤ) : ℚ) = 0 := by norm_num
  refine ⟨rfl, rfl, ?_, by decide, ?_⟩
  · rw [initialTimerText, runningText, hz]
    intro hEq
    have h2 := congrArg String.length hEq
    simp [String.length_append] at h2
    exact absurd h2 (by decide)
  · rw [runningText, hz]
    decide

/-- C9: `create_optional_systems_dispatcher` is `Some` of
`create_systems_dispatcher` for every `add_systems` callback, including the
one registering zero systems; it never produces `None`. -/
theorem optional_dispatcher_never_none
    (add_systems : DispatcherBuilder → DispatcherBuilder) :
    create_optional_systems_dispatcher add_systems =
      some (create_systems_dispatcher add_systems) ∧
    (create_optional_systems_dispatcher add_systems).isSome = true ∧
    create_optional_systems_dispatcher (fun b => b) =
      some { systems := [] } :=
  ⟨rfl, rfl, rfl⟩

/-- C10: `init_timer_text` only appends — it neither checks for nor destroys
existing timer-marker entities, so two successive calls leave two tagged
entities; the zero-or-one readout invariant is the caller's burden. -/
theorem init_timer_text_appends (w : TimerWorld) (m1 m2 : ℚ) :
    (init_timer_text w m1).timerEntities =
      w.timerEntities ++ [(w.nextId, initialTimerText m1)] ∧
    (init_timer_text (init_timer_text w m1) m2).timerEntities.length =
      w.timerEntities.length + 2 ∧
    (init_timer_text (init_timer_text ⟨[], 0⟩ m1) m2).timerEntities =
      [(0, initialTimerText m1), (1, initialTimerText m2)] := by
  simp [init_timer_text]
